import Mathlib

/-!
Verification of the promotion-picker and coordinate-mapper core
(`src/promotable.rs`, `src/util.rs`) of the chessground widget.

Shallow embedding conventions:
* `f64` arithmetic is modelled over `ℚ` (all values occurring here are
  exact in binary floating point except the rotation by `PI`, whose
  cosine/sine are taken exactly as `-1`/`0`).
* gtk allocated widths/heights (`i32`) are modelled as `ℤ`.
* Monotonic timestamps (`SteadyTime`) are modelled as `ℚ` seconds and
  passed explicitly; `Duration::num_milliseconds` truncates toward
  negative infinity, modelled with `Int.floor`.
* Event-context effects (`queue_draw`, `stream().emit`) and the mutable
  pieces model are made explicit in the result record of `mouse_down`.
-/

namespace ChessGround

/-- `shakmaty::Color`. -/
inductive Color
| White
| Black
deriving DecidableEq

/-- `Color::fold(self, white, black)`: picks the first argument for White. -/
def Color.fold : Color → α → α → α
| .White, w, _ => w
| .Black, _, b => b

/-- `Color::from_bool`: `true` gives White. -/
def Color.from_bool (b : Bool) : Color :=
  if b then .White else .Black

/-- `shakmaty::Role` (promotion-relevant piece kinds). -/
inductive Role
| Queen
| Rook
| Bishop
| Knight
| King
| Pawn
deriving DecidableEq

/-- `shakmaty::Square`, by its file/rank coordinates (each 0–7 for a real
square); `from_coords` performs the bounds check. -/
structure Square where
  file : ℤ
  rank : ℤ
deriving DecidableEq

/-- `Square::from_coords(file, rank)`: `Some` exactly for in-range coordinates. -/
def Square.from_coords (f r : ℤ) : Option Square :=
  if 0 ≤ f ∧ f < 8 ∧ 0 ≤ r ∧ r < 8 then some ⟨f, r⟩ else none

/-! ### `util.rs`: the coordinate mapper -/

/-- `cairo::Matrix`: the affine map `(x, y) ↦ (xx*x + xy*y + x0, yx*x + yy*y + y0)`. -/
structure Matrix where
  xx : ℚ
  yx : ℚ
  xy : ℚ
  yy : ℚ
  x0 : ℚ
  y0 : ℚ
deriving DecidableEq

def Matrix.identity : Matrix := ⟨1, 0, 0, 1, 0, 0⟩

/-- `cairo_matrix_transform_point`. -/
def Matrix.transform_point (m : Matrix) (p : ℚ × ℚ) : ℚ × ℚ :=
  (m.xx * p.1 + m.xy * p.2 + m.x0, m.yx * p.1 + m.yy * p.2 + m.y0)

/-- `cairo_matrix_translate`: the translation is applied to the point first,
then the original transformation. -/
def Matrix.translate (m : Matrix) (tx ty : ℚ) : Matrix :=
  { m with x0 := m.x0 + m.xx * tx + m.xy * ty
           y0 := m.y0 + m.yx * tx + m.yy * ty }

/-- `cairo_matrix_scale`: scaling applied to the point first. -/
def Matrix.scale (m : Matrix) (sx sy : ℚ) : Matrix :=
  { m with xx := m.xx * sx
           yx := m.yx * sx
           xy := m.xy * sy
           yy := m.yy * sy }

/-- `cairo_matrix_rotate`, with the angle given by its exact cosine `c` and
sine `s` (the source only rotates by `0.0` or `PI`, whose cosine/sine are
`1, 0` and `-1, 0`). Rotation applied to the point first. -/
def Matrix.rotateCS (m : Matrix) (c s : ℚ) : Matrix :=
  { m with xx := m.xx * c + m.xy * s
           yx := m.yx * c + m.yy * s
           xy := m.xy * c - m.xx * s
           yy := m.yy * c - m.yx * s }

def Matrix.det (m : Matrix) : ℚ :=
  m.xx * m.yy - m.yx * m.xy

/-- `cairo::Matrix::try_invert`: fails exactly on a singular matrix. -/
def Matrix.try_invert (m : Matrix) : Option Matrix :=
  if m.det = 0 then none
  else some ⟨m.yy / m.det, -m.yx / m.det, -m.xy / m.det, m.xx / m.det,
             (m.xy * m.y0 - m.yy * m.x0) / m.det,
             (m.yx * m.x0 - m.xx * m.y0) / m.det⟩

/-- `util::compute_matrix(widget, orientation)`, with the widget's allocated
width and height passed explicitly.  The source rotates by
`orientation.fold(0.0, PI)`; its cosine/sine are `orientation.fold 1 (-1)`
and `0`. -/
def compute_matrix (w h : ℤ) (orientation : Color) : Matrix :=
  let size : ℤ := min w h
  ((((Matrix.identity.translate ((w : ℚ) / 2) ((h : ℚ) / 2)).scale
      ((size : ℚ) / 10) ((size : ℚ) / 10)).rotateCS
      (orientation.fold 1 (-1)) 0).translate (-4) (-4))

/-- `util::inverted_to_square((x, y))`. -/
def inverted_to_square (p : ℚ × ℚ) : Option Square :=
  let x : ℤ := ⌊p.1⌋
  let y : ℤ := ⌊p.2⌋
  if 0 ≤ x ∧ x ≤ 7 ∧ 0 ≤ y ∧ y ≤ 7 then
    Square.from_coords x (7 - y)
  else
    none

/-- `util::pos_to_square(widget, orientation, (x, y))`. -/
def pos_to_square (w h : ℤ) (orientation : Color) (p : ℚ × ℚ) : Option Square :=
  (compute_matrix w h orientation).try_invert.bind fun m =>
    inverted_to_square (m.transform_point p)

/-- `util::invert_pos(widget, orientation, (x, y))`. -/
def invert_pos (w h : ℤ) (orientation : Color) (p : ℚ × ℚ) : ℚ × ℚ :=
  ((compute_matrix w h orientation).try_invert.map fun m =>
    m.transform_point p).getD p

/-! ### `promotable.rs`: the promotion picker -/

/-- The promotion-picker interaction state (`struct Promoting`). -/
structure Promoting where
  orig : Square
  dest : Square
  hover : Option Square
  time : ℚ
deriving DecidableEq

/-- `struct Promotable`. -/
structure Promotable where
  promoting : Option Promoting
deriving DecidableEq

/-- `Promotable::new()`. -/
def Promotable.new : Promotable := ⟨none⟩

/-- `Promotable::start_promoting(&mut self, orig, dest)`, with the current
time passed explicitly; returns the new state. -/
def start_promoting (_st : Promotable) (orig dest : Square) (now : ℚ) : Promotable :=
  { promoting := some { orig := orig, dest := dest, hover := some dest, time := now } }

/-- `Promotable::is_promoting(&self, orig)`. -/
def is_promoting (st : Promotable) (orig : Square) : Bool :=
  match st.promoting with
  | none => false
  | some p => p.orig == orig

/-- `Promoting::elapsed(&self)`: `(now - time).num_milliseconds() as f64 / 1000.0`,
with the millisecond count truncated toward negative infinity. -/
def Promoting.elapsed (p : Promoting) (now : ℚ) : ℚ :=
  ((⌊(now - p.time) * 1000⌋ : ℤ) : ℚ) / 1000

/-- `Promotable::is_animating(&self)`. -/
def is_animating (st : Promotable) (now : ℚ) : Bool :=
  match st.promoting with
  | none => false
  | some p => p.hover.isSome && decide (p.elapsed now < 1)

/-- `Promoting::orientation(&self)`: `Color::from_bool(self.dest.rank() > 4)`. -/
def Promoting.orientation (p : Promoting) : Color :=
  Color.from_bool (decide (4 < p.dest.rank))

/-- The rank-to-role resolution of `Promotable::mouse_down` (the `match
square.rank()` with its chain of guards `r == side.fold(..)`). -/
def role_for_rank (side : Color) (r : ℤ) : Option Role :=
  if r = side.fold 7 0 then some .Queen
  else if r = side.fold 6 1 then some .Rook
  else if r = side.fold 5 2 then some .Bishop
  else if r = side.fold 4 3 then some .Knight
  else if r = side.fold 3 4 then some .King
  else if r = side.fold 2 5 then some .Pawn
  else none

/-- A figurine of the external pieces model.
Modelled from the spec: `pieces.rs` is not among the sources; the spec's
piece/position interface is `pieceAt(square) -> Option<MutablePieceRef>`
allowing the picker "to locate and adjust a piece's animated visual
position and animation-start time on cancellation". -/
structure Figurine where
  square : Square
  pos : ℚ × ℚ
  time : ℚ
deriving DecidableEq

/-- Modelled from the spec: `Pieces::figurine_at_mut(orig)` followed by the
two field assignments of `mouse_down`; the pieces model is a list of
figurines and the first one standing on `sq` gets its visual position and
animation-start time replaced. -/
def set_figurine_at (pieces : List Figurine) (sq : Square) (pos : ℚ × ℚ) (t : ℚ) :
    List Figurine :=
  match pieces with
  | [] => []
  | f :: rest =>
    if f.square = sq then { f with pos := pos, time := t } :: rest
    else f :: set_figurine_at rest sq pos t

/-- Modelled from the spec: `util::square_to_pos` is not in the sources'
utility revision; the spec says the cancelled piece's position is reset "to
the destination square's pixel position", i.e. the board-space coordinates
of the square (file, 7 - rank). -/
def square_to_pos (s : Square) : ℚ × ℚ :=
  ((s.file : ℚ), 7 - (s.rank : ℚ))

/-- `ground::GroundMsg` (the variant `mouse_down` emits). -/
inductive GroundMsg
| UserMove (orig dest : Square) (role : Option Role)
deriving DecidableEq

/-- The observable outcome of `Promotable::mouse_down`: the new picker
state, the pieces model after the handler, the messages emitted on
`ctx.stream()`, the returned `Inhibit` flag, and whether
`ctx.widget().queue_draw()` was called. -/
structure MouseDownResult where
  state : Promotable
  pieces : List Figurine
  emits : List GroundMsg
  inhibit : Bool
  queued_draw : Bool
deriving DecidableEq

/-- `Promotable::mouse_down(&mut self, pieces, ctx)`.  `sq?` is
`ctx.square()` (the pointer position already resolved to a board square by
the event context) and `now` is `SteadyTime::now()`.  The figurine reset
(commented "animate the figurine when cancelling" in the source) runs
unconditionally before the click is resolved. -/
def mouse_down (st : Promotable) (pieces : List Figurine) (sq? : Option Square)
    (now : ℚ) : MouseDownResult :=
  match st.promoting with
  | none =>
    { state := ⟨none⟩, pieces := pieces, emits := [], inhibit := false,
      queued_draw := false }
  | some promoting =>
    let pieces' := set_figurine_at pieces promoting.orig
      (square_to_pos promoting.dest) now
    match sq? with
    | some square =>
      if square.file = promoting.dest.file then
        match role_for_rank promoting.orientation square.rank with
        | some role =>
          { state := ⟨none⟩, pieces := pieces',
            emits := [GroundMsg.UserMove promoting.orig promoting.dest (some role)],
            inhibit := true, queued_draw := true }
        | none =>
          { state := ⟨none⟩, pieces := pieces', emits := [], inhibit := false,
            queued_draw := true }
      else
        { state := ⟨none⟩, pieces := pieces', emits := [], inhibit := false,
          queued_draw := true }
    | none =>
      { state := ⟨none⟩, pieces := pieces', emits := [], inhibit := false,
        queued_draw := true }

/-- The fixed role order of `Promoting::draw`'s loop. -/
def promotion_roles : List Role :=
  [.Queen, .Rook, .Bishop, .Knight, .King, .Pawn]

/-- The display rank `Promoting::draw` computes for the role at position
`offset` of the loop: `self.orientation().fold(7 - offset as i8, offset as i8)`. -/
def draw_rank (side : Color) (offset : ℤ) : ℤ :=
  side.fold (7 - offset) offset

/-- The cells `Promoting::draw` paints: for each role of the fixed order
that the legality oracle (`state.legal_move`) accepts, the role together
with its display rank. -/
def draw_cells (legal : Square → Square → Option Role → Bool) (p : Promoting) :
    List (Role × ℤ) :=
  (promotion_roles.enum).filterMap fun ir =>
    if legal p.orig p.dest (some ir.2) then
      some (ir.2, draw_rank p.orientation (ir.1 : ℤ))
    else none

/-! ### Spec-side definitions (for refinement claims about the mapper) -/

/-- Elementary translation on points (spec wording for claim C3). -/
def translate_map (tx ty : ℚ) (p : ℚ × ℚ) : ℚ × ℚ := (p.1 + tx, p.2 + ty)

/-- Elementary uniform scaling on points (spec wording for claim C3). -/
def scale_map (k : ℚ) (p : ℚ × ℚ) : ℚ × ℚ := (k * p.1, k * p.2)

/-- Elementary 180° rotation applied only when the orientation is flipped
(spec wording for claim C3). -/
def rotate_map (o : Color) (p : ℚ × ℚ) : ℚ × ℚ := o.fold p (-p.1, -p.2)

/-- Modelled from the spec's words (refinement side of claim C3): the
forward transform described as "translate the origin to the widget center,
uniformly scale so that the smaller of width/height maps to `bu` board
units, rotate 180° iff flipped, translate by half the board".  The claim
asserts this with `bu = 8`. -/
def spec_forward_transform (bu : ℚ) (w h : ℤ) (o : Color) (p : ℚ × ℚ) : ℚ × ℚ :=
  translate_map ((w : ℚ) / 2) ((h : ℚ) / 2)
    (scale_map (((min w h : ℤ) : ℚ) / bu)
      (rotate_map o (translate_map (-4) (-4) p)))

/-- The claim C4 construct `squareToPixelCenter`: the device pixel at the
center of square `s`'s cell, i.e. the forward transform applied to the
board-space cell center `(file + 1/2, 7 - rank + 1/2)`. -/
def square_to_pixel_center (w h : ℤ) (o : Color) (s : Square) : ℚ × ℚ :=
  (compute_matrix w h o).transform_point
    ((s.file : ℚ) + 1 / 2, 7 - (s.rank : ℚ) + 1 / 2)

/-! ### Helper lemmas -/

theorem try_invert_eq_none_iff (m : Matrix) : m.try_invert = none ↔ m.det = 0 := by
  unfold Matrix.try_invert
  split_ifs with h <;> simp [h]

theorem try_invert_transform_point (m m' : Matrix)
    (hm : m.try_invert = some m') (p : ℚ × ℚ) :
    m'.transform_point (m.transform_point p) = p := by
  unfold Matrix.try_invert at hm
  split_ifs at hm with hd
  obtain ⟨x, y⟩ := p
  cases hm
  simp only [Matrix.transform_point, Matrix.det] at hd ⊢
  rw [Prod.mk.injEq]
  constructor <;> (field_simp; ring)

theorem compute_matrix_det (w h : ℤ) (o : Color) :
    (compute_matrix w h o).det = (((min w h : ℤ) : ℚ) / 10) ^ 2 := by
  cases o <;>
    simp only [compute_matrix, Matrix.identity, Matrix.translate, Matrix.scale,
      Matrix.rotateCS, Matrix.det, Color.fold] <;>
    ring

/-! ### Claim C3: shape of the forward transform -/

/-- Claim C3, counterexample: the claim says the uniform scale maps the
smaller of width/height to exactly 8 board units (scale factor
`min(w,h)/8`); the source scales by `min(w,h)/10`, so already at a 10×10
widget the transforms disagree at the board origin. -/
theorem claimC3_counterexample :
    (compute_matrix 10 10 Color.White).transform_point (0, 0) ≠
      spec_forward_transform 8 10 10 Color.White (0, 0) := by
  norm_num [compute_matrix, Matrix.identity, Matrix.translate, Matrix.scale,
    Matrix.rotateCS, Matrix.transform_point, Color.fold, spec_forward_transform,
    translate_map, scale_map, rotate_map]

/-- Claim C3 (amended): for every widget width, height and orientation, the
forward transform translates the origin to the widget center, uniformly
scales so that the smaller of width and height maps to exactly 10 board
units (not 8: the 8-unit board occupies the central 8/10 of the smaller
dimension), rotates 180° only when the orientation is flipped, and then
translates by half the board so board coordinate (0,0) is the reference
corner. -/
theorem claimC3_amended (w h : ℤ) (o : Color) (p : ℚ × ℚ) :
    (compute_matrix w h o).transform_point p = spec_forward_transform 10 w h o p := by
  obtain ⟨x, y⟩ := p
  cases o <;>
    simp only [compute_matrix, Matrix.identity, Matrix.translate, Matrix.scale,
      Matrix.rotateCS, Matrix.transform_point, Color.fold, spec_forward_transform,
      translate_map, scale_map, rotate_map] <;>
    (rw [Prod.mk.injEq]; constructor <;> ring)

/-! ### Claim C4: round trip through the forward and inverse transform -/

/-- Claim C4, counterexample: the claim quantifies over every widget size,
but at a zero-size widget the forward transform is singular, so the round
trip through `pos_to_square` yields `none` instead of the starting square. -/
theorem claimC4_counterexample :
    pos_to_square 0 0 Color.White
      (square_to_pixel_center 0 0 Color.White ⟨0, 0⟩) ≠ some ⟨0, 0⟩ := by
  norm_num [pos_to_square, square_to_pixel_center, compute_matrix,
    Matrix.identity, Matrix.translate, Matrix.scale, Matrix.rotateCS,
    Matrix.det, Matrix.try_invert, Matrix.transform_point, Color.fold]
  decide

/-- Claim C4 (amended): for all widget sizes whose smaller dimension is
nonzero, and both orientations, mapping any square to the device pixel at
the center of its cell via the forward transform and then applying
`pos_to_square` yields that same square. -/
theorem claimC4_amended (w h : ℤ) (o : Color) (s : Square)
    (h0 : 0 ≤ s.file) (h1 : s.file ≤ 7) (h2 : 0 ≤ s.rank) (h3 : s.rank ≤ 7)
    (hsize : min w h ≠ 0) :
    pos_to_square w h o (square_to_pixel_center w h o s) = some s := by
  obtain ⟨f, r⟩ := s
  simp only at h0 h1 h2 h3
  have hdet : (compute_matrix w h o).det ≠ 0 := by
    rw [compute_matrix_det]
    exact pow_ne_zero 2 (div_ne_zero (Int.cast_ne_zero.mpr hsize) (by norm_num))
  obtain ⟨m', hm'⟩ : ∃ m', (compute_matrix w h o).try_invert = some m' := by
    unfold Matrix.try_invert
    rw [if_neg hdet]
    exact ⟨_, rfl⟩
  unfold pos_to_square square_to_pixel_center
  rw [hm', Option.some_bind, try_invert_transform_point _ _ hm']
  have hx : ⌊(f : ℚ) + 1 / 2⌋ = f := by
    rw [Int.floor_eq_iff]
    constructor
    · linarith
    · linarith
  have hy : ⌊7 - (r : ℚ) + 1 / 2⌋ = 7 - r := by
    rw [Int.floor_eq_iff]
    constructor
    · push_cast
      linarith
    · push_cast
      linarith
  simp only [inverted_to_square, hx, hy]
  rw [if_pos (by omega : 0 ≤ f ∧ f ≤ 7 ∧ 0 ≤ 7 - r ∧ 7 - r ≤ 7)]
  unfold Square.from_coords
  rw [if_pos (by omega : 0 ≤ f ∧ f < 8 ∧ 0 ≤ 7 - (7 - r) ∧ 7 - (7 - r) < 8)]
  have : 7 - (7 - r) = r := by omega
  rw [this]

/-- Witness for claim C4 (amended) at a 100×100 widget and square e4. -/
theorem claimC4_witness :
    (0 : ℤ) ≤ 4 ∧ (4 : ℤ) ≤ 7 ∧ (0 : ℤ) ≤ 3 ∧ (3 : ℤ) ≤ 7 ∧
      min (100 : ℤ) 100 ≠ 0 ∧
      pos_to_square 100 100 Color.White
        (square_to_pixel_center 100 100 Color.White ⟨4, 3⟩) = some ⟨4, 3⟩ :=
  ⟨by norm_num, by norm_num, by norm_num, by norm_num, by norm_num,
    claimC4_amended 100 100 Color.White ⟨4, 3⟩ (by norm_num) (by norm_num)
      (by norm_num) (by norm_num) (by norm_num)⟩

/-! ### Claim C7: totality and bounds behaviour of `pos_to_square` -/

/-- Claim C7, counterexample: the claim says a widget of zero or negative
size yields `none`; but a negative-size widget gives a nonsingular
transform (scale `min(w,h)/10 < 0`), and for a -10×-10 widget the pixel
(-5.5, -5.5) maps to a real square. -/
theorem claimC7_counterexample :
    min (-10 : ℤ) (-10) < 0 ∧
      pos_to_square (-10) (-10) Color.White (-11 / 2, -11 / 2) = some ⟨4, 3⟩ := by
  constructor
  · norm_num
  · norm_num [pos_to_square, compute_matrix, Matrix.identity, Matrix.translate,
      Matrix.scale, Matrix.rotateCS, Matrix.det, Matrix.try_invert,
      Matrix.transform_point, Color.fold, inverted_to_square, Square.from_coords]

/-- Claim C7 (amended): `pos_to_square` is total and returns `none` exactly
when the transform is singular (which happens exactly for a zero smaller
dimension — negative sizes invert fine) or when the inverted board
coordinate, after flooring, falls outside [0,7] on either axis; when it
returns `Some`, the square's file is the floored x coordinate and its rank
is 7 minus the floored y coordinate. -/
theorem claimC7_amended (w h : ℤ) (o : Color) (p : ℚ × ℚ) :
    ((compute_matrix w h o).try_invert = none ↔ min w h = 0) ∧
    ∀ m, (compute_matrix w h o).try_invert = some m →
      pos_to_square w h o p =
        (if 0 ≤ ⌊(m.transform_point p).1⌋ ∧ ⌊(m.transform_point p).1⌋ ≤ 7 ∧
            0 ≤ ⌊(m.transform_point p).2⌋ ∧ ⌊(m.transform_point p).2⌋ ≤ 7 then
          some ⟨⌊(m.transform_point p).1⌋, 7 - ⌊(m.transform_point p).2⌋⟩
        else none) := by
  constructor
  · rw [try_invert_eq_none_iff, compute_matrix_det]
    rw [pow_eq_zero_iff (two_ne_zero), div_eq_zero_iff]
    simp only [Int.cast_eq_zero]
    norm_num
  · intro m hm
    unfold pos_to_square
    rw [hm, Option.some_bind]
    simp only [inverted_to_square, Square.from_coords]
    split_ifs with hb hc
    · rfl
    · exact absurd (by omega : 0 ≤ ⌊(m.transform_point p).1⌋ ∧
        ⌊(m.transform_point p).1⌋ < 8 ∧ 0 ≤ 7 - ⌊(m.transform_point p).2⌋ ∧
        7 - ⌊(m.transform_point p).2⌋ < 8) hc
    · rfl

/-- Witness for claim C7 (amended): at a 100×100 widget the inverse
transform exists concretely and pixel (55,55) resolves to square e4. -/
theorem claimC7_witness :
    pos_to_square 100 100 Color.White (55, 55) = some ⟨4, 3⟩ := by
  have h := (claimC7_amended 100 100 Color.White (55, 55)).2
      ⟨1 / 10, 0, 0, 1 / 10, -1, -1⟩
      (by norm_num [compute_matrix, Matrix.identity, Matrix.translate,
        Matrix.scale, Matrix.rotateCS, Matrix.det, Matrix.try_invert,
        Color.fold])
  rw [h]
  norm_num [Matrix.transform_point]

/-! ### Claims about the promotion picker -/

theorem elapsed_lt_one_iff (p : Promoting) (now : ℚ) :
    p.elapsed now < 1 ↔ now - p.time < 1 := by
  unfold Promoting.elapsed
  rw [div_lt_one (by norm_num : (0 : ℚ) < 1000),
    show ((1000 : ℚ)) = ((1000 : ℤ) : ℚ) by norm_num, Int.cast_lt, Int.floor_lt]
  push_cast
  constructor <;> intro hlt <;> linarith

/-- Claim C10: when no promotion is in progress, a pointer-down is a
complete no-op: handled = false, no move event, pieces untouched, no
redraw requested, and the picker stays Idle. -/
theorem claimC10 (pieces : List Figurine) (sq? : Option Square) (now : ℚ) :
    mouse_down ⟨none⟩ pieces sq? now =
      { state := ⟨none⟩, pieces := pieces, emits := [], inhibit := false,
        queued_draw := false } := rfl

/-- Claim C5: every pointer-down received while a promotion is in progress
consumes the promotion state, whatever the outcome: afterwards the picker
is Idle and `is_promoting` is false for every square. -/
theorem claimC5 (p : Promoting) (pieces : List Figurine) (sq? : Option Square)
    (now : ℚ) :
    (mouse_down ⟨some p⟩ pieces sq? now).state = ⟨none⟩ ∧
    ∀ s, is_promoting (mouse_down ⟨some p⟩ pieces sq? now).state s = false := by
  have hstate : (mouse_down ⟨some p⟩ pieces sq? now).state = ⟨none⟩ := by
    cases sq? with
    | none => rfl
    | some square =>
      unfold mouse_down
      dsimp only
      split_ifs
      · cases role_for_rank p.orientation square.rank <;> rfl
      · rfl
  exact ⟨hstate, fun s => by rw [hstate]; rfl⟩

/-- Claim C8: after `start_promoting o d`, the state holds origin `o`,
destination `d`, hovered square `Some d` and `since = now`, and
`is_promoting s` returns true exactly for `s = o`. -/
theorem claimC8 (st : Promotable) (o d : Square) (now : ℚ) :
    (start_promoting st o d now).promoting =
      some { orig := o, dest := d, hover := some d, time := now } ∧
    is_promoting (start_promoting st o d now) o = true ∧
    ∀ s : Square, is_promoting (start_promoting st o d now) s = decide (o = s) := by
  refine ⟨rfl, ?_, fun s => ?_⟩
  · simp [is_promoting, start_promoting]
  · by_cases hos : o = s <;> simp [is_promoting, start_promoting, hos]

/-- Claim C9: `is_animating` returns true exactly when a promotion is in
progress, a hovered square is present, and the elapsed time since `since`
is strictly below 1.0 seconds; in every other state it returns false. -/
theorem claimC9 (st : Promotable) (now : ℚ) :
    is_animating st now = true ↔
      ∃ p, st.promoting = some p ∧ p.hover.isSome = true ∧ now - p.time < 1 := by
  obtain ⟨pr⟩ := st
  cases pr with
  | none => simp [is_animating]
  | some p => simp [is_animating, elapsed_lt_one_iff]

/-- Claim C2, counterexample: on a pointer-down that resolves the promotion
to a role (the non-cancellation path: a move event is emitted), the pieces
model is still mutated — the figurine standing on the origin square gets
its position and animation time overwritten before the click is resolved. -/
theorem claimC2_counterexample :
    (mouse_down ⟨some ⟨⟨4, 6⟩, ⟨4, 7⟩, some ⟨4, 7⟩, 0⟩⟩
        [⟨⟨4, 6⟩, (0, 0), 0⟩] (some ⟨4, 7⟩) 5).emits ≠ [] ∧
    (mouse_down ⟨some ⟨⟨4, 6⟩, ⟨4, 7⟩, some ⟨4, 7⟩, 0⟩⟩
        [⟨⟨4, 6⟩, (0, 0), 0⟩] (some ⟨4, 7⟩) 5).pieces ≠ [⟨⟨4, 6⟩, (0, 0), 0⟩] := by
  norm_num [mouse_down, set_figurine_at, square_to_pos, role_for_rank,
    Promoting.orientation, Color.from_bool, Color.fold]

/-- Claim C2 (amended): the picker mutates the figurine at the origin
square (its visual position is set to the destination's position and its
animation-start time to now) on *every* pointer-down received while a
promotion is in progress — on the path that emits a legal move just as on
the cancellation path; only in the Idle state is the pieces model left
unchanged. -/
theorem claimC2_amended (p : Promoting) (pieces : List Figurine)
    (sq? : Option Square) (now : ℚ) :
    (mouse_down ⟨some p⟩ pieces sq? now).pieces =
      set_figurine_at pieces p.orig (square_to_pos p.dest) now ∧
    (mouse_down ⟨none⟩ pieces sq? now).pieces = pieces := by
  refine ⟨?_, rfl⟩
  cases sq? with
  | none => rfl
  | some square =>
    unfold mouse_down
    dsimp only
    split_ifs
    · cases role_for_rank p.orientation square.rank <;> rfl
    · rfl

/-- Claim C1, counterexample: the claim requires the user-move event to be
emitted only when the external legality oracle confirms the move; but
`mouse_down` never consults any oracle — with a promotion e7→e8 in
progress, a pointer-down on e8 emits `UserMove(e7, e8, Some(Queen))` even
against an oracle that rejects every move. -/
theorem claimC1_counterexample :
    ¬ ∀ (oracle : Square → Square → Option Role → Bool) (role : Role),
        (mouse_down ⟨some ⟨⟨4, 6⟩, ⟨4, 7⟩, some ⟨4, 7⟩, 0⟩⟩ [] (some ⟨4, 7⟩) 5).emits =
          [GroundMsg.UserMove ⟨4, 6⟩ ⟨4, 7⟩ (some role)] →
        oracle ⟨4, 6⟩ ⟨4, 7⟩ (some role) = true := by
  intro hclaim
  have hemit : (mouse_down ⟨some ⟨⟨4, 6⟩, ⟨4, 7⟩, some ⟨4, 7⟩, 0⟩⟩ []
      (some ⟨4, 7⟩) 5).emits =
      [GroundMsg.UserMove ⟨4, 6⟩ ⟨4, 7⟩ (some Role.Queen)] := by
    norm_num [mouse_down, set_figurine_at, square_to_pos, role_for_rank,
      Promoting.orientation, Color.from_bool, Color.fold]
  have h := hclaim (fun _ _ _ => false) Role.Queen hemit
  simp at h

/-- Claim C1 (amended): for a promotion in progress, a pointer-down on a
square emits the user-move event `(origin, destination, Some(role))` and
returns handled = true precisely when the square's file equals the
destination's file and its rank maps to a role via the
orientation-dependent rank-offset table; the legality oracle plays no part
in `mouse_down` (it only filters which cells `draw` paints), so the event
is emitted even for a role the oracle would reject. -/
theorem claimC1_amended (p : Promoting) (pieces : List Figurine)
    (square : Square) (now : ℚ) :
    (mouse_down ⟨some p⟩ pieces (some square) now).emits =
      (if square.file = p.dest.file then
        (role_for_rank p.orientation square.rank).elim []
          (fun role => [GroundMsg.UserMove p.orig p.dest (some role)])
      else []) ∧
    (mouse_down ⟨some p⟩ pieces (some square) now).inhibit =
      (decide (square.file = p.dest.file) &&
        (role_for_rank p.orientation square.rank).isSome) := by
  unfold mouse_down
  dsimp only
  split_ifs with hf
  · cases hr : role_for_rank p.orientation square.rank <;> simp [hr, hf]
  · simp [hf]

/-- Claim C6: the role-to-rank table used by `mouse_down` and the one used
by `draw` agree — every cell `draw` paints resolves back to its role — and
the table is Queen, Rook, Bishop, Knight, King, Pawn at ranks 7,6,5,4,3,2
for a White (bottom-origin) promotion and at the mirrored 0,1,2,3,4,5 for
Black. -/
theorem claimC6 (legal : Square → Square → Option Role → Bool) (p : Promoting)
    (role : Role) (rank : ℤ) (h : (role, rank) ∈ draw_cells legal p) :
    role_for_rank p.orientation rank = some role ∧
    (promotion_roles.enum.map fun ir => (ir.2, draw_rank Color.White (ir.1 : ℤ))) =
      [(.Queen, 7), (.Rook, 6), (.Bishop, 5), (.Knight, 4), (.King, 3), (.Pawn, 2)] ∧
    (promotion_roles.enum.map fun ir => (ir.2, draw_rank Color.Black (ir.1 : ℤ))) =
      [(.Queen, 0), (.Rook, 1), (.Bishop, 2), (.Knight, 3), (.King, 4), (.Pawn, 5)] := by
  refine ⟨?_, by decide, by decide⟩
  simp only [draw_cells, promotion_roles, List.enum, List.mem_filterMap] at h
  obtain ⟨ir, hmem, hf⟩ := h
  rw [Option.ite_none_right_eq_some, Option.some.injEq, Prod.mk.injEq] at hf
  obtain ⟨-, hrole, hrank⟩ := hf
  subst hrole
  subst hrank
  cases hor : p.orientation <;>
    fin_cases hmem <;> decide

/-- Witness for claim C6: with an all-accepting oracle and the promotion
e7→e8 (White side), the Queen cell is painted at rank 7 and resolves back
to Queen. -/
theorem claimC6_witness :
    ((Role.Queen, (7 : ℤ)) ∈
      draw_cells (fun _ _ _ => true) ⟨⟨4, 6⟩, ⟨4, 7⟩, some ⟨4, 7⟩, 0⟩) ∧
    role_for_rank (Promoting.orientation ⟨⟨4, 6⟩, ⟨4, 7⟩, some ⟨4, 7⟩, 0⟩) 7 =
      some Role.Queen :=
  ⟨by decide, (claimC6 (fun _ _ _ => true) ⟨⟨4, 6⟩, ⟨4, 7⟩, some ⟨4, 7⟩, 0⟩
    Role.Queen 7 (by decide)).1⟩

end ChessGround
